import Mathlib

/-!
Verification of the meh-synth core against its specification.

Each C++ function referenced by a claim is shallowly embedded as a Lean
definition: machine integers become `Nat`/`Int` with explicit wrapping where
overflow matters, IEEE floating point becomes exact `Rat`/`Real` arithmetic
except where a rounding step is observable (the uint32-to-float conversion in
the noise path, which is modelled bit-exactly), and fallible functions return
`Option`.  Definitions follow the structure of the source files under
`src/libs` and `src/src`; constants missing from the source snapshot (headers
not present in the repository) are modelled from the spec and marked as such.
-/

set_option maxHeartbeats 1000000

namespace DspWavetable

/-- Table size constant from dsp/Wavetable.h: `TABLE_SIZE = 2048`. -/
def TABLE_SIZE : ℕ := 2048

/-- Fixed-point phase shift from dsp/Wavetable.h: `PHASE_SHIFT = 21`. -/
def PHASE_SHIFT : ℕ := 21

/-- Index mask from dsp/Wavetable.h: `TABLE_MASK = TABLE_SIZE - 1 = 2047`. -/
def TABLE_MASK : ℕ := TABLE_SIZE - 1

/-- Fraction mask from dsp/Wavetable.h: `FRAC_MASK = (1 << PHASE_SHIFT) - 1`. -/
def FRAC_MASK : ℕ := (1 <<< PHASE_SHIFT) - 1

/-- Fraction scale from dsp/Wavetable.h: `FRAC_SCALE = 1 / 2^21`.  The float
constant `1.0f / float(1u << 21)` is the exact dyadic rational `2⁻²¹`. -/
def FRAC_SCALE : ℚ := 1 / 2 ^ PHASE_SHIFT

/-- Maximum frame count from dsp/Wavetable.h: `MAX_FRAMES = 256`. -/
def MAX_FRAMES : ℕ := 256

/-- Maximum bank name length from dsp/Wavetable.h: `MAX_BANK_NAME_LEN = 64`. -/
def MAX_BANK_NAME_LEN : ℕ := 64

/-- Embedding of `readTable` from src/libs/dsp/src/Wavetable.cpp.  The
`uint32_t phase` argument is represented as a natural number taken modulo
`2^32`; the C array of 2048 floats is modelled as a total function on indices,
and the theorems below prove that the two accessed indices always lie below
`TABLE_SIZE`, which is the contract making the unchecked C access valid.
Float arithmetic is modelled exactly over `ℚ`. -/
def readTable (t : ℕ → ℚ) (phase : ℕ) : ℚ :=
  let iA : ℕ := (phase % 2 ^ 32) >>> PHASE_SHIFT
  let iB : ℕ := (iA + 1) &&& TABLE_MASK
  let frac : ℚ := ((phase % 2 ^ 32 &&& FRAC_MASK : ℕ) : ℚ) * FRAC_SCALE
  t iA + frac * (t iB - t iA)

/-- Truncation toward zero, the semantics of a C `static_cast` from a floating
value to an integer type (for values representable in the target type). -/
def cTrunc (q : ℚ) : ℤ := if 0 ≤ q then ⌊q⌋ else -⌊-q⌋

/-- Embedding of `toFixedPhaseInc` from src/libs/dsp/include/dsp/Wavetable.h.
The computation `double(phaseIncrement) / TABLE_SIZE * 4294967296.0` is exact
in double precision (a binary32 value is scaled by a power of two well inside
the binary64 range), so exact rational arithmetic models it bit-for-bit; the
final `static_cast<uint32_t>` truncates toward zero.  The result is kept in
`ℤ`; the C++ cast is only defined for results in `[0, 2^32)`. -/
def toFixedPhaseInc (phaseIncrement : ℚ) : ℤ :=
  cTrunc (phaseIncrement / (TABLE_SIZE : ℚ) * 4294967296)

/-- Embedding of the `WavetableBank` record from dsp/Wavetable.h.  The name is
the character content stored before the null terminator; heap frame storage
is outside the model. -/
structure WavetableBank where
  frameCount : ℕ
  name : List Char

/-- Embedding of `createWavetableBank` from src/libs/dsp/src/Wavetable.cpp:
rejects `frameCount == 0 || frameCount > MAX_FRAMES` before allocating,
otherwise builds a bank with the given frame count and a name copied by
`strncpy(dst, name, MAX_BANK_NAME_LEN - 1)` followed by forced null
termination, i.e. at most 63 characters of the argument are kept. -/
def createWavetableBank (frameCount : ℕ) (name : List Char) : Option WavetableBank :=
  if frameCount = 0 ∨ frameCount > MAX_FRAMES then none
  else some { frameCount := frameCount, name := name.take (MAX_BANK_NAME_LEN - 1) }

end DspWavetable

namespace DspMath

/-- Exponent of the leading binary digit of a uint32 value at or above
`2^24`, written as the explicit comparison chain covering the eight binades
that can occur in the uint32-to-float conversion. -/
def u32Exp (x : ℕ) : ℕ :=
  if x < 2 ^ 25 then 24
  else if x < 2 ^ 26 then 25
  else if x < 2 ^ 27 then 26
  else if x < 2 ^ 28 then 27
  else if x < 2 ^ 29 then 28
  else if x < 2 ^ 30 then 29
  else if x < 2 ^ 31 then 30
  else 31

/-- Round to nearest integer, ties to even, the IEEE-754 default rounding. -/
def roundHalfEven (m : ℚ) : ℤ :=
  let f := ⌊m⌋
  if m - (f : ℚ) < 1 / 2 then f
  else if 1 / 2 < m - (f : ℚ) then f + 1
  else if f % 2 = 0 then f else f + 1

/-- Value of `static_cast<float>(x)` for a uint32 `x`: exact below `2^24`,
otherwise rounded to a 24-bit significand (nearest, ties to even).  This is
the one float rounding step in the noise path whose effect is observable:
inputs at or above `2^32 - 128` round up to `2^32` exactly. -/
def u32ToFloat (x : ℕ) : ℚ :=
  if x < 2 ^ 24 then (x : ℚ)
  else (roundHalfEven ((x : ℚ) / 2 ^ (u32Exp x - 23)) : ℚ) * 2 ^ (u32Exp x - 23)

/-- Default PRNG seed from src/libs/dsp/src/Math.cpp: `s_seed = 2463534242u`. -/
def NOISE_SEED : ℕ := 2463534242

/-- Embedding of `xorshift32` from src/libs/dsp/src/Math.cpp.  The `uint32_t`
state is a natural number below `2^32`; each left shift wraps modulo `2^32`. -/
def xorshift32 (s : ℕ) : ℕ :=
  let s1 := (s ^^^ (s <<< 13) % 2 ^ 32) % 2 ^ 32
  let s2 := (s1 ^^^ s1 >>> 17) % 2 ^ 32
  (s2 ^^^ (s2 <<< 5) % 2 ^ 32) % 2 ^ 32

/-- Embedding of `randNoiseValue` from src/libs/dsp/src/Math.cpp, with the
global seed made explicit: advances the PRNG, converts its output to float
and multiplies by the literal `2.32830644e-10f`.  The binary32 value of that
literal is exactly `2^-32 = 1/4294967296`, and multiplying a float by that
power of two only shifts its exponent, so the multiplication is exact. -/
def randNoiseValue (s : ℕ) : ℚ × ℕ :=
  let s2 := xorshift32 s
  (u32ToFloat s2 * (1 / 4294967296), s2)

end DspMath

namespace SynthNoise

/-- Noise type enumeration from src/src/synth/NoiseOscillator.h. -/
inductive NoiseType where
  | White
  | Pink
deriving DecidableEq

/-- Embedding of the `NoiseOscillator` record from NoiseOscillator.h. -/
structure NoiseOscillator where
  mixLevel : ℚ
  noiseType : NoiseType
  enabled : Bool
  b0 : ℚ
  b1 : ℚ
  b2 : ℚ

/-- Embedding of `processNoise` from src/src/synth/NoiseOscillator.cpp, with
the PRNG seed passed explicitly.  Decimal literals of the Kellet pink filter
are modelled as exact decimals; only the White branch is claim-relevant. -/
def processNoise (noise : NoiseOscillator) (seed : ℕ) : ℚ × NoiseOscillator × ℕ :=
  if !noise.enabled then (0, noise, seed)
  else
    let r := DspMath.randNoiseValue seed
    let noiseValue := r.1
    match noise.noiseType with
    | NoiseType.White => (noiseValue * noise.mixLevel, noise, r.2)
    | NoiseType.Pink =>
      let b0 := 0.99886 * noise.b0 + noiseValue * 0.0555179
      let b1 := 0.99332 * noise.b1 + noiseValue * 0.0750759
      let b2 := 0.96900 * noise.b2 + noiseValue * 0.1538520
      let pink := (b0 + b1 + b2 + noiseValue * 0.5362) * 0.11
      (pink * noise.mixLevel, { noise with b0 := b0, b1 := b1, b2 := b2 }, r.2)

end SynthNoise


namespace SynthIo

/-- Embedding of `ParamEvent` from src/libs/synth_io/include/synth_io/Events.h:
a `uint8_t` parameter id and a normalized float value. -/
structure ParamEvent where
  id : ℕ
  value : ℚ
deriving DecidableEq

/-- Queue capacity from ParamEventQueue.h: `SIZE = 256` (a power of two so the
indices can wrap by bitmasking). -/
def SIZE : ℕ := 256

/-- Index mask from ParamEventQueue.h: `WRAP = SIZE - 1`. -/
def WRAP : ℕ := SIZE - 1

/-- Embedding of the `ParamEventQueue` record from ParamEventQueue.h.  The C
array of `SIZE` events is modelled as a total function on indices (operations
only ever touch indices below `SIZE`); the two atomic indices are naturals
kept below `SIZE` by the operations.  The single-threaded embedding serializes
the producer and consumer steps, which is faithful to the SPSC discipline in
which each operation is atomic with respect to the other endpoint. -/
structure ParamEventQueue where
  queue : ℕ → ParamEvent
  readIndex : ℕ
  writeIndex : ℕ

/-- Embedding of `ParamEventQueue::push` from ParamEventQueue.cpp: full when
advancing the write index would collide with the read index; otherwise stores
the event and publishes the new write index. -/
def push (q : ParamEventQueue) (event : ParamEvent) : Bool × ParamEventQueue :=
  let currentIndex := q.writeIndex
  let nextIndex := (currentIndex + 1) &&& WRAP
  if nextIndex = q.readIndex then (false, q)
  else
    (true, { q with queue := Function.update q.queue currentIndex event,
                    writeIndex := nextIndex })

/-- Embedding of `ParamEventQueue::pop` from ParamEventQueue.cpp: empty when
the read index equals the write index; otherwise returns the event at the
read index and advances it. -/
def pop (q : ParamEventQueue) : Option ParamEvent × ParamEventQueue :=
  let currentIndex := q.readIndex
  if currentIndex = q.writeIndex then (none, q)
  else (some (q.queue currentIndex), { q with readIndex := (currentIndex + 1) &&& WRAP })

/-- Number of unconsumed events held by the queue. -/
def count (q : ParamEventQueue) : ℕ := (q.writeIndex + SIZE - q.readIndex) % SIZE

/-- Abstraction of the ring buffer to the list of unconsumed events, oldest
first. -/
def toList (q : ParamEventQueue) : List ParamEvent :=
  (List.range (count q)).map (fun i => q.queue ((q.readIndex + i) % SIZE))

end SynthIo


namespace SynthEnvelope

/-- Envelope state machine states from src/src/synth/Envelope.cpp. -/
inductive EnvState where
  | Idle
  | Attack
  | Decay
  | Sustain
  | Release
deriving DecidableEq

/-- Embedding of the `Envelope` record (fields as used by Envelope.cpp; the
header is not in the source snapshot, but every field below is read or
written by the .cpp file).  Millisecond and level parameters are floats
modelled over `ℚ`; sample counts are C `int` modelled over `ℤ`. -/
structure Envelope where
  mSampleRate : ℚ
  mAttackMs : ℚ
  mDecayMs : ℚ
  mReleaseMs : ℚ
  mSustainLevel : ℚ
  mAttackSamples : ℤ
  mDecaySamples : ℤ
  mReleaseSamples : ℤ
  mState : EnvState
  mSamplesInCurrentState : ℤ
  mReleaseStartLevel : ℚ

/-- Embedding of `Envelope::convertMsToSamples`: `int((ms / 1000.f) * rate)`,
a cast that truncates toward zero. -/
def convertMsToSamples (ms sampleRate : ℚ) : ℤ :=
  DspWavetable.cTrunc (ms / 1000 * sampleRate)

/-- Embedding of `Envelope::setAttack`; the C++ setter throws on a negative
argument, modelled as `none`. -/
def setAttack (e : Envelope) (ms : ℚ) : Option Envelope :=
  if ms < 0 then none
  else some { e with mAttackMs := ms, mAttackSamples := convertMsToSamples ms e.mSampleRate }

/-- Embedding of `Envelope::setDecay`. -/
def setDecay (e : Envelope) (ms : ℚ) : Option Envelope :=
  if ms < 0 then none
  else some { e with mDecayMs := ms, mDecaySamples := convertMsToSamples ms e.mSampleRate }

/-- Embedding of `Envelope::setSustain`. -/
def setSustain (e : Envelope) (value : ℚ) : Option Envelope :=
  if value < 0 ∨ value > 1 then none
  else some { e with mSustainLevel := value }

/-- Embedding of `Envelope::setRelease`. -/
def setRelease (e : Envelope) (ms : ℚ) : Option Envelope :=
  if ms < 0 then none
  else some { e with mReleaseMs := ms, mReleaseSamples := convertMsToSamples ms e.mSampleRate }

/-- Embedding of `Envelope::calculateAttack`: a zero-length attack stage
outputs 1. -/
def calculateAttack (e : Envelope) : ℚ :=
  if e.mAttackSamples = 0 then 1
  else (e.mSamplesInCurrentState : ℚ) / (e.mAttackSamples : ℚ)

/-- Embedding of `Envelope::calculateDecay`: a zero-length decay stage
outputs 1. -/
def calculateDecay (e : Envelope) : ℚ :=
  if e.mDecaySamples = 0 then 1
  else 1 - (e.mSamplesInCurrentState : ℚ) / (e.mDecaySamples : ℚ) * (1 - e.mSustainLevel)

/-- Embedding of `Envelope::calculateRelease`: a zero-length release stage
outputs 1. -/
def calculateRelease (e : Envelope) : ℚ :=
  if e.mReleaseSamples = 0 then 1
  else e.mReleaseStartLevel * (1 - (e.mSamplesInCurrentState : ℚ) / (e.mReleaseSamples : ℚ))

/-- Embedding of `Envelope::getCurrentAmplitude`. -/
def getCurrentAmplitude (e : Envelope) : ℚ :=
  match e.mState with
  | EnvState.Attack => calculateAttack e
  | EnvState.Decay => calculateDecay e
  | EnvState.Sustain => e.mSustainLevel
  | EnvState.Release => calculateRelease e
  | EnvState.Idle => 0

/-- Embedding of `Envelope::trigger` (note-on). -/
def trigger (e : Envelope) : Envelope :=
  { e with mSamplesInCurrentState := 0, mState := EnvState.Attack }

/-- Embedding of `Envelope::release` (note-off): snapshots the current
amplitude before switching to the Release stage. -/
def release (e : Envelope) : Envelope :=
  { e with mReleaseStartLevel := getCurrentAmplitude e,
           mState := EnvState.Release,
           mSamplesInCurrentState := 0 }

/-- Embedding of `Envelope::getNextSample`: returns the amplitude for the
current sample and the successor state.  The amplitude is computed before the
counter increment; stage completion is checked on the incremented counter. -/
def getNextSample (e : Envelope) : ℚ × Envelope :=
  match e.mState with
  | EnvState.Attack =>
    let amplitude := calculateAttack e
    let n := e.mSamplesInCurrentState + 1
    if n ≥ e.mAttackSamples then
      (amplitude, { e with mState := EnvState.Decay, mSamplesInCurrentState := 0 })
    else (amplitude, { e with mSamplesInCurrentState := n })
  | EnvState.Decay =>
    let amplitude := calculateDecay e
    let n := e.mSamplesInCurrentState + 1
    if n ≥ e.mDecaySamples then
      (amplitude, { e with mState := EnvState.Sustain, mSamplesInCurrentState := 0 })
    else (amplitude, { e with mSamplesInCurrentState := n })
  | EnvState.Sustain => (e.mSustainLevel, e)
  | EnvState.Release =>
    let amplitude := calculateRelease e
    let n := e.mSamplesInCurrentState + 1
    if n ≥ e.mReleaseSamples then
      (amplitude, { e with mState := EnvState.Idle, mSamplesInCurrentState := 0 })
    else (amplitude, { e with mSamplesInCurrentState := n })
  | EnvState.Idle => (0, e)

/-- Embedding of `Envelope::isDone`. -/
def isDone (e : Envelope) : Bool := e.mState = EnvState.Idle

end SynthEnvelope


namespace SynthMod

/-- Modelled from the spec: `MAX_MOD_ROUTES` lives in a header absent from
the source snapshot; section 4.G fixes the route capacity at 16. -/
def MAX_MOD_ROUTES : ℕ := 16

/-- Modelled from the spec: closed modulation source enumeration of section
4.G (its defining header is absent from the snapshot); `NoSrc` is the zero
value used for cleared slots. -/
inductive ModSrc where
  | NoSrc
  | LFO1
  | LFO2
  | Env1
  | Env2
  | ModWheel
  | Velocity
  | KeyTrack
  | Aftertouch
deriving DecidableEq

/-- Modelled from the spec: closed modulation destination enumeration of
section 4.G (its defining header is absent from the snapshot); `NoDest` is
the zero value used for cleared slots. -/
inductive ModDest where
  | NoDest
  | Osc1Pitch
  | Osc2Pitch
  | Osc3Pitch
  | SubPitch
  | FilterCutoff
  | FilterResonance
  | AmpLevel
  | Osc1FM
  | Osc2FM
  | Osc3FM
  | ScanPosition
deriving DecidableEq

/-- A mod route triple as stored in the matrix. -/
structure ModRoute where
  src : ModSrc
  dest : ModDest
  amount : ℚ
deriving DecidableEq

/-- The cleared slot value `(NoSrc, NoDest, 0.0)`, which is also the
zero-initialized state of a route. -/
def emptyRoute : ModRoute := ⟨ModSrc.NoSrc, ModDest.NoDest, 0⟩

/-- Embedding of the `ModMatrix` record as used by src/src/synth/ModMatrix.cpp:
a fixed array of `MAX_MOD_ROUTES` routes with a count, and per-destination,
per-voice previous/current/step value tables.  C arrays are modelled as total
functions; the operations only touch route indices below `MAX_MOD_ROUTES`. -/
structure ModMatrix where
  routes : ℕ → ModRoute
  count : ℕ
  destValues : ModDest → ℕ → ℚ
  prevDestValues : ModDest → ℕ → ℚ
  destStepValues : ModDest → ℕ → ℚ

/-- The zero-initialized matrix. -/
def initMatrix : ModMatrix :=
  ⟨fun _ => emptyRoute, 0, fun _ _ => 0, fun _ _ => 0, fun _ _ => 0⟩

/-- Embedding of `addRoute` from ModMatrix.cpp: fails at capacity, otherwise
writes the new route at position `count` and increments the count. -/
def addRoute (m : ModMatrix) (src : ModSrc) (dest : ModDest) (amount : ℚ) :
    Bool × ModMatrix :=
  if m.count ≥ MAX_MOD_ROUTES then (false, m)
  else
    (true, { m with routes := Function.update m.routes m.count ⟨src, dest, amount⟩,
                    count := m.count + 1 })

/-- Embedding of `removeRoute` from ModMatrix.cpp: fails when the index is
out of range, otherwise decrements the count, swaps the last route into the
removed slot and clears the vacated last slot. -/
def removeRoute (m : ModMatrix) (index : ℕ) : Bool × ModMatrix :=
  if index ≥ m.count ∨ m.count < 1 then (false, m)
  else
    let newCount := m.count - 1
    let swapped := Function.update m.routes index (m.routes newCount)
    (true, { m with count := newCount,
                    routes := Function.update swapped newCount emptyRoute })

/-- Embedding of `clearRoutes` from ModMatrix.cpp: resets every slot of the
route array and zeroes the count. -/
def clearRoutes (m : ModMatrix) : Bool × ModMatrix :=
  (true, { m with routes := fun _ => emptyRoute, count := 0 })

/-- Embedding of `setModDestStep` from ModMatrix.cpp: stores
`(current - previous) * invNumSamples` into the step table at the given
destination and voice. -/
def setModDestStep (m : ModMatrix) (dest : ModDest) (voiceIndex : ℕ)
    (invNumSamples : ℚ) : ModMatrix :=
  { m with destStepValues := fun d v =>
      if d = dest ∧ v = voiceIndex then
        (m.destValues dest voiceIndex - m.prevDestValues dest voiceIndex) * invNumSamples
      else m.destStepValues d v }

/-- An operation on the route table, for stating the preservation invariant. -/
inductive MatrixOp where
  | add (src : ModSrc) (dest : ModDest) (amount : ℚ)
  | remove (index : ℕ)
  | clear

/-- Apply one route-table operation. -/
def applyOp (m : ModMatrix) (op : MatrixOp) : ModMatrix :=
  match op with
  | MatrixOp.add s d a => (addRoute m s d a).2
  | MatrixOp.remove i => (removeRoute m i).2
  | MatrixOp.clear => (clearRoutes m).2

/-- The route-table invariant: the count never exceeds the capacity and every
slot at or beyond the count is cleared. -/
def RouteInv (m : ModMatrix) : Prop :=
  m.count ≤ MAX_MOD_ROUTES ∧ ∀ i, m.count ≤ i → m.routes i = emptyRoute

end SynthMod


namespace SynthOsc

/-- Semitone ratio constant `SEMITONE_RATIO = 1.059463094f` from
src/libs/dsp/include/dsp/Math.h, a float literal approximating `2^(1/12)`
(the float rounding of the literal is immaterial to the theorems below, which
treat the constant symbolically or cancel it). -/
noncomputable def semitoneRatio : ℝ := 1.059463094

/-- Modelled from the spec: `ROOT_NOTE_FREQ` is defined in the synth/Types.h
header absent from the snapshot; section 4.C fixes A4 = 440 Hz. -/
noncomputable def ROOT_NOTE_FREQ : ℝ := 440

/-- Modelled from the spec: `ROOT_NOTE_MIDI` is defined in the synth/Types.h
header absent from the snapshot; section 4.C fixes the root at MIDI note 69. -/
def ROOT_NOTE_MIDI : ℤ := 69

/-- Embedding of `semitoneToFrequency` from src/src/utils/Utils.cpp:
`ROOT_NOTE_FREQ * pow(SEMITONE_RATIO, semitones)` with an integer semitone
argument, modelled with an exact integer power. -/
noncomputable def semitoneToFrequency (semitones : ℤ) : ℝ :=
  ROOT_NOTE_FREQ * semitoneRatio ^ semitones

/-- Embedding of `midiToFrequency` from src/src/utils/Utils.cpp. -/
noncomputable def midiToFrequency (midiValue : ℤ) : ℝ :=
  semitoneToFrequency (midiValue - ROOT_NOTE_MIDI)

/-- Model of `std::exp2f` as the exact base-2 real exponential. -/
noncomputable def exp2 (x : ℝ) : ℝ := (2 : ℝ) ^ x

/-- FM source enumeration from WavetableOsc.h. -/
inductive FMSource where
  | None
  | Osc1
  | Osc2
  | Osc3
  | Sub
deriving DecidableEq

/-- Embedding of the `WavetableOscillator` record from WavetableOsc.h: the
per-voice SoA phase arrays are total functions on the voice index, and the
global oscillator settings are kept as written. -/
structure WavetableOscillator where
  phases : ℕ → ℕ
  phaseIncrements : ℕ → ℝ
  bank : Option DspWavetable.WavetableBank
  scanPosition : ℝ
  mixLevel : ℝ
  fmDepth : ℝ
  fmSource : FMSource
  octaveOffset : ℤ
  detuneAmount : ℝ
  enabled : Bool

/-- Embedding of `initOscillator` from src/src/synth/WavetableOsc.cpp:
`offsetExp = octaveOffset + detuneAmount / 1200`, then
`freq = midiToFrequency(midiNote) * exp2f(offsetExp)`, phase reset to 0 and
`phaseIncrements[voice] = TABLE_SIZE * freq / sampleRate`. -/
noncomputable def initOscillator (osc : WavetableOscillator) (voiceIndex : ℕ)
    (midiNote : ℤ) (sampleRate : ℝ) : WavetableOscillator :=
  let offsetExp : ℝ := (osc.octaveOffset : ℝ) + osc.detuneAmount / 1200
  let freq : ℝ := midiToFrequency midiNote * exp2 offsetExp
  { osc with
      phases := Function.update osc.phases voiceIndex 0,
      phaseIncrements := Function.update osc.phaseIncrements voiceIndex
        ((DspWavetable.TABLE_SIZE : ℝ) * freq / sampleRate) }

end SynthOsc

namespace DspFilters

/-- Embedding of `updateFilterCoefficients` from src/src/dsp/Filters.cpp:
clamp the cutoff to `[20, 0.45 * sampleRate]` and the resonance to
`[0, 0.99]`, then `f = 2 * sin(pi * cutoff / sampleRate)` and
`q = 1 - resonance`.  `std::clamp(v, lo, hi)` is `max lo (min v hi)`; the
float cast of `M_PI` is modelled as the exact `pi`, matching the constant the
spec formula names. -/
noncomputable def updateFilterCoefficients (cutoff resonance sampleRate : ℝ) : ℝ × ℝ :=
  let cutoffClamped := max 20 (min cutoff (sampleRate * 0.45))
  let resonanceClamped := max 0 (min resonance 0.99)
  (2 * Real.sin (Real.pi * cutoffClamped / sampleRate), 1 - resonanceClamped)

/-- Stated from the spec wording of section 4.F, for comparison with the
source embedding: cached coefficients `(f, q)` with
`f = 2 * sin(pi * cutoff / sampleRate)`, `q = 1 - resonance`,
`cutoff` in `[20, 0.45 * sampleRate]` and `resonance` in `[0, 0.99]`. -/
noncomputable def specSVFCoefficients (cutoff resonance sampleRate : ℝ) : ℝ × ℝ :=
  (2 * Real.sin (Real.pi * (max 20 (min cutoff (sampleRate * 0.45))) / sampleRate),
   1 - max 0 (min resonance 0.99))

end DspFilters

namespace DspWavetable

/-- A 32-bit phase shifted right by `PHASE_SHIFT` is a valid table index. -/
theorem shiftedPhase_lt_tableSize (p : ℕ) : (p % 2 ^ 32) >>> PHASE_SHIFT < TABLE_SIZE := by
  have h : p % 2 ^ 32 < 2 ^ 32 := Nat.mod_lt _ (by norm_num)
  rw [Nat.shiftRight_eq_div_pow]
  simp only [PHASE_SHIFT, TABLE_SIZE] at *
  omega

/-- Masking with `TABLE_MASK` always produces a valid table index. -/
theorem masked_lt_tableSize (n : ℕ) : n &&& TABLE_MASK < TABLE_SIZE := by
  have h := Nat.and_pow_two_sub_one_eq_mod n 11
  have h2 : TABLE_MASK = 2 ^ 11 - 1 := by norm_num [TABLE_MASK, TABLE_SIZE]
  rw [h2, h]
  exact Nat.mod_lt _ (by norm_num [TABLE_SIZE])

/-- A phase below `2^32` shifted right by `PHASE_SHIFT` is a valid index. -/
theorem shiftRight_lt_of_lt {p : ℕ} (hp : p < 2 ^ 32) : p >>> PHASE_SHIFT < TABLE_SIZE := by
  rw [Nat.shiftRight_eq_div_pow]
  simp only [PHASE_SHIFT, TABLE_SIZE]
  omega

/-- C1: for every table of length 2048 and every 32-bit fixed-point phase `p`,
`readTable t p` returns `t[iA] + frac * (t[iB] - t[iA])` with `iA = p >> 21`,
`iB = (iA + 1) & 2047` and `frac = (p & 0x1FFFFF) / 2^21`, and both indices
are always within `[0, 2047]`, so no bounds check is needed. -/
theorem readTable_spec (t : ℕ → ℚ) (p : ℕ) (hp : p < 2 ^ 32) :
    p >>> PHASE_SHIFT < TABLE_SIZE ∧
    ((p >>> PHASE_SHIFT) + 1) &&& TABLE_MASK < TABLE_SIZE ∧
    readTable t p =
      t (p >>> PHASE_SHIFT) +
        ((p &&& FRAC_MASK : ℕ) : ℚ) / 2 ^ 21 *
          (t (((p >>> PHASE_SHIFT) + 1) &&& TABLE_MASK) - t (p >>> PHASE_SHIFT)) := by
  refine ⟨shiftRight_lt_of_lt hp, masked_lt_tableSize _, ?_⟩
  simp only [readTable, Nat.mod_eq_of_lt hp, FRAC_SCALE, PHASE_SHIFT]
  ring

/-- Witness for C1 at table `t i = i` and phase `5·2^21 + 7`. -/
theorem readTable_spec_witness :
    (5 * 2 ^ 21 + 7 : ℕ) < 2 ^ 32 ∧
    ((5 * 2 ^ 21 + 7 : ℕ) >>> PHASE_SHIFT < TABLE_SIZE ∧
     (((5 * 2 ^ 21 + 7 : ℕ) >>> PHASE_SHIFT) + 1) &&& TABLE_MASK < TABLE_SIZE ∧
     readTable (fun i => (i : ℚ)) (5 * 2 ^ 21 + 7) =
       (fun i : ℕ => (i : ℚ)) ((5 * 2 ^ 21 + 7 : ℕ) >>> PHASE_SHIFT) +
         (((5 * 2 ^ 21 + 7 : ℕ) &&& FRAC_MASK : ℕ) : ℚ) / 2 ^ 21 *
           ((fun i : ℕ => (i : ℚ)) ((((5 * 2 ^ 21 + 7 : ℕ) >>> PHASE_SHIFT) + 1) &&& TABLE_MASK) -
             (fun i : ℕ => (i : ℚ)) ((5 * 2 ^ 21 + 7 : ℕ) >>> PHASE_SHIFT))) :=
  ⟨by norm_num, readTable_spec (fun i => (i : ℚ)) (5 * 2 ^ 21 + 7) (by norm_num)⟩

/-- C6 counterexample: at `inc = 7/2^23` (a binary32-representable value) the
code truncates `inc / TABLE_SIZE · 2^32 = 1.75` to `1`, while rounding to the
nearest integer as the claim states would give `2`. -/
theorem toFixedPhaseInc_not_round :
    toFixedPhaseInc (7 / 2 ^ 23) = 1 ∧
    round ((7 : ℚ) / 2 ^ 23 / (TABLE_SIZE : ℚ) * 2 ^ 32) = 2 ∧
    toFixedPhaseInc (7 / 2 ^ 23) ≠ round ((7 : ℚ) / 2 ^ 23 / (TABLE_SIZE : ℚ) * 2 ^ 32) := by
  have h : (7 : ℚ) / 2 ^ 23 / (TABLE_SIZE : ℚ) * 2 ^ 32 = 7 / 4 := by
    norm_num [TABLE_SIZE]
  refine ⟨?_, ?_, ?_⟩
  · unfold toFixedPhaseInc cTrunc
    rw [show ((7 : ℚ) / 2 ^ 23 / (TABLE_SIZE : ℚ) * 4294967296) = 7 / 4 by norm_num [TABLE_SIZE]]
    norm_num
  · rw [h]; norm_num [round_eq]
  · unfold toFixedPhaseInc cTrunc
    rw [h, show ((7 : ℚ) / 2 ^ 23 / (TABLE_SIZE : ℚ) * 4294967296) = 7 / 4 by norm_num [TABLE_SIZE]]
    norm_num [round_eq]

/-- C6 amended: for every non-negative phase increment, `toFixedPhaseInc`
computes `inc / TABLE_SIZE · 2^32` exactly and truncates it toward zero
(equivalently, takes its floor), so the result is within one unit below the
exact value — it does not round to nearest. -/
theorem toFixedPhaseInc_trunc (inc : ℚ) (h : 0 ≤ inc) :
    toFixedPhaseInc inc = ⌊inc / (TABLE_SIZE : ℚ) * 2 ^ 32⌋ ∧
    inc / (TABLE_SIZE : ℚ) * 2 ^ 32 - 1 < (toFixedPhaseInc inc : ℚ) ∧
    (toFixedPhaseInc inc : ℚ) ≤ inc / (TABLE_SIZE : ℚ) * 2 ^ 32 := by
  have hx : (0 : ℚ) ≤ inc / (TABLE_SIZE : ℚ) * 4294967296 := by
    apply mul_nonneg (div_nonneg h (by norm_num [TABLE_SIZE])) (by norm_num)
  have he : (4294967296 : ℚ) = 2 ^ 32 := by norm_num
  constructor
  · unfold toFixedPhaseInc cTrunc
    rw [if_pos hx, he]
  · rw [show toFixedPhaseInc inc = ⌊inc / (TABLE_SIZE : ℚ) * 2 ^ 32⌋ by
      unfold toFixedPhaseInc cTrunc; rw [if_pos hx, he]]
    exact ⟨Int.sub_one_lt_floor _, Int.floor_le _⟩

/-- Witness for C6 amended at `inc = 3`. -/
theorem toFixedPhaseInc_trunc_witness :
    (0 : ℚ) ≤ 3 ∧
    (toFixedPhaseInc 3 = ⌊(3 : ℚ) / (TABLE_SIZE : ℚ) * 2 ^ 32⌋ ∧
     (3 : ℚ) / (TABLE_SIZE : ℚ) * 2 ^ 32 - 1 < (toFixedPhaseInc 3 : ℚ) ∧
     (toFixedPhaseInc 3 : ℚ) ≤ (3 : ℚ) / (TABLE_SIZE : ℚ) * 2 ^ 32) :=
  ⟨by norm_num, toFixedPhaseInc_trunc 3 (by norm_num)⟩

/-- C9: `createWavetableBank` fails exactly when the frame count is zero or
exceeds `MAX_FRAMES = 256`, and on success stores the requested frame count
and a copy of at most 63 characters of the name. -/
theorem createWavetableBank_spec (fc : ℕ) (nm : List Char) :
    (createWavetableBank fc nm = none ↔ fc = 0 ∨ MAX_FRAMES < fc) ∧
    ∀ b, createWavetableBank fc nm = some b →
      b.frameCount = fc ∧ b.name = nm.take (MAX_BANK_NAME_LEN - 1) ∧ b.name.length ≤ 63 := by
  constructor
  · rw [createWavetableBank]
    split_ifs with hif
    · simpa using hif
    · simpa using hif
  · intro b hb
    rw [createWavetableBank] at hb
    split_ifs at hb with hif
    cases hb
    refine ⟨rfl, rfl, ?_⟩
    simp only [List.length_take, MAX_BANK_NAME_LEN]
    omega

/-- Witness for C9 at frame count 3 and a two-character name. -/
theorem createWavetableBank_spec_witness :
    ((createWavetableBank 3 ['a', 'b'] = none ↔ 3 = 0 ∨ MAX_FRAMES < 3) ∧
     ∀ b, createWavetableBank 3 ['a', 'b'] = some b →
       b.frameCount = 3 ∧ b.name = ['a', 'b'].take (MAX_BANK_NAME_LEN - 1) ∧
         b.name.length ≤ 63) ∧
    WavetableBank.frameCount ⟨3, ['a', 'b']⟩ = 3 :=
  ⟨createWavetableBank_spec 3 ['a', 'b'], rfl⟩

end DspWavetable

namespace DspMath

/-- Characterization of the binade exponent chain for inputs in `[2^24, 2^32)`. -/
theorem u32Exp_spec (x : ℕ) (h1 : 2 ^ 24 ≤ x) (h2 : x < 2 ^ 32) :
    24 ≤ u32Exp x ∧ u32Exp x ≤ 31 ∧ x < 2 ^ (u32Exp x + 1) := by
  unfold u32Exp
  split_ifs <;> norm_num <;> omega

/-- Rounding half to even never exceeds the floor plus one. -/
theorem roundHalfEven_le_floor_add_one (m : ℚ) : roundHalfEven m ≤ ⌊m⌋ + 1 := by
  simp only [roundHalfEven]
  split_ifs <;> omega

/-- Rounding half to even is at least the floor. -/
theorem floor_le_roundHalfEven (m : ℚ) : ⌊m⌋ ≤ roundHalfEven m := by
  simp only [roundHalfEven]
  split_ifs <;> omega

/-- The float value of a uint32 is nonnegative. -/
theorem u32ToFloat_nonneg (x : ℕ) : 0 ≤ u32ToFloat x := by
  unfold u32ToFloat
  split_ifs with h
  · positivity
  · have hf : (0 : ℤ) ≤ ⌊(x : ℚ) / 2 ^ (u32Exp x - 23)⌋ :=
      Int.floor_nonneg.mpr (by positivity)
    have hr := floor_le_roundHalfEven ((x : ℚ) / 2 ^ (u32Exp x - 23))
    have hge : (0 : ℤ) ≤ roundHalfEven ((x : ℚ) / 2 ^ (u32Exp x - 23)) := le_trans hf hr
    exact mul_nonneg (by exact_mod_cast hge) (by positivity)

/-- The float value of a uint32 below `2^32` is at most `2^32` (the maximum
input `2^32 - 1` rounds up to exactly `2^32`). -/
theorem u32ToFloat_le (x : ℕ) (hx : x < 2 ^ 32) : u32ToFloat x ≤ 2 ^ 32 := by
  unfold u32ToFloat
  split_ifs with h
  · have : (x : ℚ) < 2 ^ 24 := by exact_mod_cast h
    calc (x : ℚ) ≤ 2 ^ 24 := le_of_lt this
      _ ≤ 2 ^ 32 := by norm_num
  · push_neg at h
    obtain ⟨h24, h31, hlt⟩ := u32Exp_spec x h hx
    have hm : (x : ℚ) / 2 ^ (u32Exp x - 23) < 2 ^ 24 := by
      rw [div_lt_iff₀ (by positivity)]
      have hq : (x : ℚ) < 2 ^ (u32Exp x + 1) := by exact_mod_cast hlt
      calc (x : ℚ) < 2 ^ (u32Exp x + 1) := hq
        _ = 2 ^ 24 * 2 ^ (u32Exp x - 23) := by
            rw [← pow_add]
            congr 1
            omega
    have hfl : ⌊(x : ℚ) / 2 ^ (u32Exp x - 23)⌋ < 2 ^ 24 :=
      Int.floor_lt.mpr (by exact_mod_cast hm)
    have hr : roundHalfEven ((x : ℚ) / 2 ^ (u32Exp x - 23)) ≤ 2 ^ 24 := by
      have := roundHalfEven_le_floor_add_one ((x : ℚ) / 2 ^ (u32Exp x - 23))
      omega
    calc (roundHalfEven ((x : ℚ) / 2 ^ (u32Exp x - 23)) : ℚ) * 2 ^ (u32Exp x - 23)
        ≤ (2 ^ 24 : ℚ) * 2 ^ (u32Exp x - 23) := by
          apply mul_le_mul_of_nonneg_right _ (by positivity)
          exact_mod_cast hr
      _ = 2 ^ (24 + (u32Exp x - 23)) := by rw [pow_add]
      _ ≤ 2 ^ 32 := by
          apply pow_le_pow_right₀ (by norm_num)
          omega

/-- The xorshift32 step always produces a 32-bit state. -/
theorem xorshift32_lt (s : ℕ) : xorshift32 s < 2 ^ 32 := by
  unfold xorshift32
  exact Nat.mod_lt _ (by norm_num)

/-- Every noise sample produced by `randNoiseValue` lies in `[0, 1]`. -/
theorem randNoiseValue_mem (s : ℕ) :
    0 ≤ (randNoiseValue s).1 ∧ (randNoiseValue s).1 ≤ 1 := by
  unfold randNoiseValue
  constructor
  · exact mul_nonneg (u32ToFloat_nonneg _) (by norm_num)
  · have h := u32ToFloat_le (xorshift32 s) (xorshift32_lt s)
    calc u32ToFloat (xorshift32 s) * (1 / 4294967296)
        ≤ (2 ^ 32 : ℚ) * (1 / 4294967296) := mul_le_mul_of_nonneg_right h (by norm_num)
      _ = 1 := by norm_num

end DspMath

namespace SynthNoise

/-- C5: every white-noise sample lies in `[-1, 1]`: `randNoiseValue` scales
the xorshift32 output (internal seed defaulting to 2463534242) into `[-1, 1]`,
and `processNoise` in White mode returns that value times `mixLevel`. -/
theorem processNoise_white_spec (noise : NoiseOscillator) (seed : ℕ)
    (hen : noise.enabled = true) (hw : noise.noiseType = NoiseType.White)
    (hm0 : 0 ≤ noise.mixLevel) (hm1 : noise.mixLevel ≤ 1) :
    DspMath.NOISE_SEED = 2463534242 ∧
    -1 ≤ (DspMath.randNoiseValue seed).1 ∧ (DspMath.randNoiseValue seed).1 ≤ 1 ∧
    (processNoise noise seed).1 = (DspMath.randNoiseValue seed).1 * noise.mixLevel ∧
    -1 ≤ (processNoise noise seed).1 ∧ (processNoise noise seed).1 ≤ 1 := by
  obtain ⟨hn0, hn1⟩ := DspMath.randNoiseValue_mem seed
  have heq : (processNoise noise seed).1 =
      (DspMath.randNoiseValue seed).1 * noise.mixLevel := by
    unfold processNoise
    rw [hen]
    simp only [Bool.not_true, Bool.false_eq_true, if_false, hw]
  refine ⟨rfl, le_trans (by norm_num) hn0, hn1, heq, ?_, ?_⟩
  · rw [heq]
    exact le_trans (by norm_num) (mul_nonneg hn0 hm0)
  · rw [heq]
    exact mul_le_one₀ hn1 hm0 hm1

/-- Witness for C5 at the default seed and mix level one half. -/
theorem processNoise_white_spec_witness :
    DspMath.NOISE_SEED = 2463534242 ∧
    -1 ≤ (DspMath.randNoiseValue DspMath.NOISE_SEED).1 ∧
    (DspMath.randNoiseValue DspMath.NOISE_SEED).1 ≤ 1 ∧
    (processNoise ⟨1 / 2, NoiseType.White, true, 0, 0, 0⟩ DspMath.NOISE_SEED).1 =
      (DspMath.randNoiseValue DspMath.NOISE_SEED).1 *
        (NoiseOscillator.mixLevel ⟨1 / 2, NoiseType.White, true, 0, 0, 0⟩) ∧
    -1 ≤ (processNoise ⟨1 / 2, NoiseType.White, true, 0, 0, 0⟩ DspMath.NOISE_SEED).1 ∧
    (processNoise ⟨1 / 2, NoiseType.White, true, 0, 0, 0⟩ DspMath.NOISE_SEED).1 ≤ 1 :=
  processNoise_white_spec ⟨1 / 2, NoiseType.White, true, 0, 0, 0⟩ DspMath.NOISE_SEED
    rfl rfl (by norm_num) (by norm_num)

end SynthNoise

namespace SynthIo

/-- Bit-masking with `WRAP` is reduction modulo `SIZE`. -/
theorem and_wrap (n : ℕ) : n &&& WRAP = n % SIZE := by
  have h := Nat.and_pow_two_sub_one_eq_mod n 8
  have h2 : WRAP = 2 ^ 8 - 1 := by norm_num [WRAP, SIZE]
  have h3 : SIZE = 2 ^ 8 := by norm_num [SIZE]
  rw [h2, h3, h]

/-- The abstraction list holds exactly `count q` events. -/
theorem toList_length (q : ParamEventQueue) : (toList q).length = count q := by
  simp [toList]

/-- A successful push appends the event to the abstraction list and keeps the
indices below `SIZE`. -/
theorem push_toList (q : ParamEventQueue) (e : ParamEvent)
    (hr : q.readIndex < SIZE) (hw : q.writeIndex < SIZE)
    (h : (q.writeIndex + 1) % SIZE ≠ q.readIndex) :
    (push q e).1 = true ∧
    toList (push q e).2 = toList q ++ [e] ∧
    (push q e).2.readIndex < SIZE ∧ (push q e).2.writeIndex < SIZE := by
  have hpush : push q e =
      (true, { q with queue := Function.update q.queue q.writeIndex e,
                      writeIndex := (q.writeIndex + 1) &&& WRAP }) := by
    simp only [push, and_wrap]
    rw [if_neg h]
  rw [hpush]
  refine ⟨rfl, ?_, hr, by simp only [and_wrap, SIZE]; omega⟩
  have hcount : count { q with queue := Function.update q.queue q.writeIndex e, writeIndex := (q.writeIndex + 1) &&& WRAP } = count q + 1 := by
    simp only [count, and_wrap, SIZE] at *
    omega
  have hful : (q.readIndex + count q) % SIZE = q.writeIndex := by
    simp only [count, SIZE] at *
    omega
  simp only [toList, hcount, List.range_succ, List.map_append, List.map_cons, List.map_nil]
  congr 1
  · apply List.map_congr_left
    intro i hi
    have hi2 : i < count q := List.mem_range.mp hi
    have hne : (q.readIndex + i) % SIZE ≠ q.writeIndex := by
      simp only [count, SIZE] at *
      omega
    exact Function.update_noteq hne e q.queue
  · rw [hful]
    simp

/-- A pop from a nonempty queue returns the oldest event, the abstraction
list loses its head, and the indices stay below `SIZE`. -/
theorem pop_toList (q : ParamEventQueue)
    (hr : q.readIndex < SIZE) (hw : q.writeIndex < SIZE)
    (h : q.readIndex ≠ q.writeIndex) :
    (pop q).1 = some (q.queue q.readIndex) ∧
    toList q = q.queue q.readIndex :: toList (pop q).2 ∧
    (pop q).2.readIndex < SIZE ∧ (pop q).2.writeIndex < SIZE := by
  have hpop : pop q =
      (some (q.queue q.readIndex), { q with readIndex := (q.readIndex + 1) &&& WRAP }) := by
    simp only [pop]
    rw [if_neg h]
  rw [hpop]
  refine ⟨rfl, ?_, by simp only [and_wrap, SIZE]; omega, hw⟩
  have hcount : count q = count { q with readIndex := (q.readIndex + 1) &&& WRAP } + 1 := by
    simp only [count, and_wrap, SIZE] at *
    omega
  simp only [toList, hcount, List.range_succ_eq_map, List.map_cons, List.map_map]
  congr 1
  · have : (q.readIndex + 0) % SIZE = q.readIndex := by
      simp only [SIZE] at *
      omega
    rw [this]
  · apply List.map_congr_left
    intro i hi
    have hi2 : i < count { q with readIndex := (q.readIndex + 1) &&& WRAP } :=
      List.mem_range.mp hi
    simp only [Function.comp_apply, and_wrap]
    congr 1
    simp only [count, and_wrap, SIZE] at *
    omega

/-- C3: for the SPSC param event queue of capacity 256, `push` fails exactly
when the queue already holds 255 unconsumed events, i.e. when
`(writeIndex + 1) & 255 == readIndex`, and stores nothing on failure; `pop`
fails exactly when the queue is empty; successful pushes append and
successful pops take the oldest element, so events are delivered in FIFO
order. -/
theorem paramEventQueue_spec (q : ParamEventQueue) (e : ParamEvent)
    (hr : q.readIndex < SIZE) (hw : q.writeIndex < SIZE) :
    ((push q e).1 = false ↔ (toList q).length = SIZE - 1) ∧
    ((push q e).1 = false ↔ (q.writeIndex + 1) &&& WRAP = q.readIndex) ∧
    ((push q e).1 = false → (push q e).2 = q) ∧
    ((pop q).1 = none ↔ toList q = []) ∧
    ((pop q).1 = none → (pop q).2 = q) ∧
    ((push q e).1 = true →
      toList (push q e).2 = toList q ++ [e] ∧
      (push q e).2.readIndex < SIZE ∧ (push q e).2.writeIndex < SIZE) ∧
    (∀ ev rest, toList q = ev :: rest →
      (pop q).1 = some ev ∧ toList (pop q).2 = rest ∧
      (pop q).2.readIndex < SIZE ∧ (pop q).2.writeIndex < SIZE) := by
  have hfst : (push q e).1 = false ↔ (q.writeIndex + 1) % SIZE = q.readIndex := by
    simp only [push, and_wrap]
    split_ifs with hif
    · simpa using hif
    · simpa using hif
  have hpopfst : (pop q).1 = none ↔ q.readIndex = q.writeIndex := by
    simp only [pop]
    split_ifs with hif
    · simpa using hif
    · simpa using hif
  refine ⟨?_, ?_, ?_, ?_, ?_, ?_, ?_⟩
  · rw [hfst, toList_length]
    simp only [count, SIZE] at *
    omega
  · rw [hfst, and_wrap]
  · intro hfail
    rw [hfst] at hfail
    simp only [push, and_wrap]
    rw [if_pos hfail]
  · rw [hpopfst, ← List.length_eq_zero, toList_length]
    simp only [count, SIZE] at *
    omega
  · intro hfail
    rw [hpopfst] at hfail
    simp only [pop]
    rw [if_pos hfail]
  · intro hsucc
    have hne : (q.writeIndex + 1) % SIZE ≠ q.readIndex := by
      intro hcol
      rw [← hfst] at hcol
      rw [hsucc] at hcol
      cases hcol
    exact (push_toList q e hr hw hne).2
  · intro ev rest hlist
    have hne : q.readIndex ≠ q.writeIndex := by
      intro hcol
      have : (pop q).1 = none := hpopfst.mpr hcol
      have h0 : toList q = [] := by
        rw [← List.length_eq_zero, toList_length]
        simp only [count, SIZE] at *
        omega
      rw [hlist] at h0
      cases h0
    obtain ⟨h1, h2, h3, h4⟩ := pop_toList q hr hw hne
    rw [hlist] at h2
    have hev : q.queue q.readIndex = ev := ((List.cons.injEq _ _ _ _).mp h2.symm).1
    have hrest : toList (pop q).2 = rest :=
      ((List.cons.injEq _ _ _ _).mp h2.symm).2
    rw [← hev]
    exact ⟨h1, hrest, h3, h4⟩

/-- Witness for C3 at the zero-initialized queue and a sample event. -/
theorem paramEventQueue_spec_witness :
    ((ParamEventQueue.mk (fun _ => ParamEvent.mk 0 0) 0 0).readIndex < SIZE ∧
     (ParamEventQueue.mk (fun _ => ParamEvent.mk 0 0) 0 0).writeIndex < SIZE) ∧
    (    ((push (ParamEventQueue.mk (fun _ => ParamEvent.mk 0 0) 0 0) (ParamEvent.mk 1 (1 / 2))).1 = false ↔ (toList (ParamEventQueue.mk (fun _ => ParamEvent.mk 0 0) 0 0)).length = SIZE - 1) ∧
    ((push (ParamEventQueue.mk (fun _ => ParamEvent.mk 0 0) 0 0) (ParamEvent.mk 1 (1 / 2))).1 = false ↔ ((ParamEventQueue.mk (fun _ => ParamEvent.mk 0 0) 0 0).writeIndex + 1) &&& WRAP = (ParamEventQueue.mk (fun _ => ParamEvent.mk 0 0) 0 0).readIndex) ∧
    ((push (ParamEventQueue.mk (fun _ => ParamEvent.mk 0 0) 0 0) (ParamEvent.mk 1 (1 / 2))).1 = false → (push (ParamEventQueue.mk (fun _ => ParamEvent.mk 0 0) 0 0) (ParamEvent.mk 1 (1 / 2))).2 = (ParamEventQueue.mk (fun _ => ParamEvent.mk 0 0) 0 0)) ∧
    ((pop (ParamEventQueue.mk (fun _ => ParamEvent.mk 0 0) 0 0)).1 = none ↔ toList (ParamEventQueue.mk (fun _ => ParamEvent.mk 0 0) 0 0) = []) ∧
    ((pop (ParamEventQueue.mk (fun _ => ParamEvent.mk 0 0) 0 0)).1 = none → (pop (ParamEventQueue.mk (fun _ => ParamEvent.mk 0 0) 0 0)).2 = (ParamEventQueue.mk (fun _ => ParamEvent.mk 0 0) 0 0)) ∧
    ((push (ParamEventQueue.mk (fun _ => ParamEvent.mk 0 0) 0 0) (ParamEvent.mk 1 (1 / 2))).1 = true →
      toList (push (ParamEventQueue.mk (fun _ => ParamEvent.mk 0 0) 0 0) (ParamEvent.mk 1 (1 / 2))).2 = toList (ParamEventQueue.mk (fun _ => ParamEvent.mk 0 0) 0 0) ++ [(ParamEvent.mk 1 (1 / 2))] ∧
      (push (ParamEventQueue.mk (fun _ => ParamEvent.mk 0 0) 0 0) (ParamEvent.mk 1 (1 / 2))).2.readIndex < SIZE ∧ (push (ParamEventQueue.mk (fun _ => ParamEvent.mk 0 0) 0 0) (ParamEvent.mk 1 (1 / 2))).2.writeIndex < SIZE) ∧
    (∀ ev rest, toList (ParamEventQueue.mk (fun _ => ParamEvent.mk 0 0) 0 0) = ev :: rest →
      (pop (ParamEventQueue.mk (fun _ => ParamEvent.mk 0 0) 0 0)).1 = some ev ∧ toList (pop (ParamEventQueue.mk (fun _ => ParamEvent.mk 0 0) 0 0)).2 = rest ∧
      (pop (ParamEventQueue.mk (fun _ => ParamEvent.mk 0 0) 0 0)).2.readIndex < SIZE ∧ (pop (ParamEventQueue.mk (fun _ => ParamEvent.mk 0 0) 0 0)).2.writeIndex < SIZE)) :=
  ⟨⟨by norm_num [SIZE], by norm_num [SIZE]⟩,
    paramEventQueue_spec (ParamEventQueue.mk (fun _ => ParamEvent.mk 0 0) 0 0)
      (ParamEvent.mk 1 (1 / 2)) (by norm_num [SIZE]) (by norm_num [SIZE])⟩

end SynthIo

namespace SynthEnvelope

/-- C4 counterexample: configure attack = decay = release = 0 ms (0 samples)
and sustain 1/2.  The first call to getNextSample after a trigger returns 1,
not the sustain level; the first call after a release also returns 1, not 0. -/
theorem envelope_zero_counterexample :
    convertMsToSamples 0 48000 = 0 ∧
    (getNextSample (trigger (Envelope.mk 48000 0 0 0 (1 / 2) 0 0 0 EnvState.Idle 0 0))).1 = 1 ∧
    (getNextSample (release (Envelope.mk 48000 0 0 0 (1 / 2) 0 0 0 EnvState.Sustain 0 0))).1 = 1 ∧
    (1 : ℚ) ≠ 1 / 2 ∧ (1 : ℚ) ≠ 0 := by
  refine ⟨?_, ?_, ?_, by norm_num, by norm_num⟩
  · norm_num [convertMsToSamples, DspWavetable.cTrunc]
  · norm_num [getNextSample, trigger, calculateAttack]
  · norm_num [getNextSample, release, calculateRelease]

/-- C4 amended: with all three stage lengths zero and sustain level `s`, the
first two calls after a trigger return 1 (the zero-length attack and decay
stages each emit one sample of amplitude 1), the third call returns `s` in
the Sustain state; after a release the first call returns 1 and the envelope
is Idle from then on, emitting 0 — so the amplitude is `s` only from the
third sample and is 0 from the second sample after note-off. -/
theorem envelope_zero_adr_spec (e : Envelope)
    (ha : e.mAttackSamples = 0) (hd : e.mDecaySamples = 0) (hr : e.mReleaseSamples = 0) :
    convertMsToSamples 0 e.mSampleRate = 0 ∧
    (getNextSample (trigger e)).1 = 1 ∧
    (getNextSample (getNextSample (trigger e)).2).1 = 1 ∧
    (getNextSample (getNextSample (getNextSample (trigger e)).2).2).1 = e.mSustainLevel ∧
    (getNextSample (getNextSample (getNextSample (trigger e)).2).2).2.mState =
      EnvState.Sustain ∧
    (getNextSample (release e)).1 = 1 ∧
    (getNextSample (release e)).2.mState = EnvState.Idle ∧
    (getNextSample (getNextSample (release e)).2).1 = 0 ∧
    (getNextSample (getNextSample (release e)).2).2 = (getNextSample (release e)).2 := by
  refine ⟨?_, ?_, ?_, ?_, ?_, ?_, ?_, ?_, ?_⟩ <;>
    norm_num [getNextSample, trigger, release, calculateAttack, calculateDecay,
      calculateRelease, getCurrentAmplitude, convertMsToSamples, DspWavetable.cTrunc,
      ha, hd, hr]

/-- Witness for C4 amended at sample rate 48000 and sustain level one half. -/
theorem envelope_zero_adr_spec_witness :
    (Envelope.mk 48000 0 0 0 (1 / 2) 0 0 0 EnvState.Idle 0 0).mAttackSamples = 0 ∧
    (
    convertMsToSamples 0 (Envelope.mk 48000 0 0 0 (1 / 2) 0 0 0 EnvState.Idle 0 0).mSampleRate = 0 ∧
    (getNextSample (trigger (Envelope.mk 48000 0 0 0 (1 / 2) 0 0 0 EnvState.Idle 0 0))).1 = 1 ∧
    (getNextSample (getNextSample (trigger (Envelope.mk 48000 0 0 0 (1 / 2) 0 0 0 EnvState.Idle 0 0))).2).1 = 1 ∧
    (getNextSample (getNextSample (getNextSample (trigger (Envelope.mk 48000 0 0 0 (1 / 2) 0 0 0 EnvState.Idle 0 0))).2).2).1 = (Envelope.mk 48000 0 0 0 (1 / 2) 0 0 0 EnvState.Idle 0 0).mSustainLevel ∧
    (getNextSample (getNextSample (getNextSample (trigger (Envelope.mk 48000 0 0 0 (1 / 2) 0 0 0 EnvState.Idle 0 0))).2).2).2.mState =
      EnvState.Sustain ∧
    (getNextSample (release (Envelope.mk 48000 0 0 0 (1 / 2) 0 0 0 EnvState.Idle 0 0))).1 = 1 ∧
    (getNextSample (release (Envelope.mk 48000 0 0 0 (1 / 2) 0 0 0 EnvState.Idle 0 0))).2.mState = EnvState.Idle ∧
    (getNextSample (getNextSample (release (Envelope.mk 48000 0 0 0 (1 / 2) 0 0 0 EnvState.Idle 0 0))).2).1 = 0 ∧
    (getNextSample (getNextSample (release (Envelope.mk 48000 0 0 0 (1 / 2) 0 0 0 EnvState.Idle 0 0))).2).2 = (getNextSample (release (Envelope.mk 48000 0 0 0 (1 / 2) 0 0 0 EnvState.Idle 0 0))).2) :=
  ⟨rfl, envelope_zero_adr_spec (Envelope.mk 48000 0 0 0 (1 / 2) 0 0 0 EnvState.Idle 0 0)
    rfl rfl rfl⟩

end SynthEnvelope

namespace SynthMod

/-- The zero-initialized matrix satisfies the route-table invariant. -/
theorem routeInv_init : RouteInv initMatrix :=
  ⟨by norm_num [initMatrix, MAX_MOD_ROUTES], fun _ _ => rfl⟩

/-- `addRoute` preserves the route-table invariant. -/
theorem routeInv_addRoute (m : ModMatrix) (s : ModSrc) (d : ModDest) (a : ℚ)
    (h : RouteInv m) : RouteInv (addRoute m s d a).2 := by
  obtain ⟨h1, h2⟩ := h
  unfold addRoute
  split_ifs with hif
  · exact ⟨h1, h2⟩
  · push_neg at hif
    constructor
    · show m.count + 1 ≤ MAX_MOD_ROUTES
      omega
    · intro i hi
      have hi2 : m.count + 1 ≤ i := hi
      show Function.update m.routes m.count ⟨s, d, a⟩ i = emptyRoute
      rw [Function.update_noteq (by omega)]
      exact h2 i (by omega)

/-- `removeRoute` preserves the route-table invariant. -/
theorem routeInv_removeRoute (m : ModMatrix) (idx : ℕ)
    (h : RouteInv m) : RouteInv (removeRoute m idx).2 := by
  obtain ⟨h1, h2⟩ := h
  unfold removeRoute
  split_ifs with hif
  · exact ⟨h1, h2⟩
  · push_neg at hif
    obtain ⟨hidx, hcnt⟩ := hif
    constructor
    · show m.count - 1 ≤ MAX_MOD_ROUTES
      omega
    · intro i hi
      have hi2 : m.count - 1 ≤ i := hi
      show Function.update (Function.update m.routes idx (m.routes (m.count - 1)))
        (m.count - 1) emptyRoute i = emptyRoute
      rcases eq_or_ne i (m.count - 1) with rfl | hne
      · rw [Function.update_same]
      · rw [Function.update_noteq hne, Function.update_noteq (by omega)]
        exact h2 i (by omega)

/-- `clearRoutes` establishes the route-table invariant unconditionally. -/
theorem routeInv_clearRoutes (m : ModMatrix) : RouteInv (clearRoutes m).2 :=
  ⟨by norm_num [clearRoutes, MAX_MOD_ROUTES], fun _ _ => rfl⟩

/-- Any sequence of route operations preserves the route-table invariant. -/
theorem routeInv_foldl (ops : List MatrixOp) (m : ModMatrix) (h : RouteInv m) :
    RouteInv (ops.foldl applyOp m) := by
  induction ops generalizing m with
  | nil => exact h
  | cons op rest ih =>
    simp only [List.foldl_cons]
    apply ih
    cases op with
    | add s d a => exact routeInv_addRoute m s d a h
    | remove i => exact routeInv_removeRoute m i h
    | clear => exact routeInv_clearRoutes m

/-- C10: starting from the zero-initialized matrix, after any sequence of
addRoute, removeRoute and clearRoutes calls the count stays within
`MAX_MOD_ROUTES = 16` and every slot at an index at or beyond the count holds
`(NoSrc, NoDest, 0.0)`; `removeRoute` succeeds exactly when the index is
below the count. -/
theorem modMatrix_route_invariant (ops : List MatrixOp) :
    (ops.foldl applyOp initMatrix).count ≤ MAX_MOD_ROUTES ∧
    (∀ i, (ops.foldl applyOp initMatrix).count ≤ i →
      (ops.foldl applyOp initMatrix).routes i = emptyRoute) ∧
    (∀ m idx, (removeRoute m idx).1 = true ↔ idx < m.count) := by
  obtain ⟨h1, h2⟩ := routeInv_foldl ops initMatrix routeInv_init
  refine ⟨h1, h2, ?_⟩
  intro m idx
  unfold removeRoute
  split_ifs with hif
  · constructor
    · intro hc
      exact hc.elim
    · intro hc
      exact absurd hc (by omega)
  · constructor
    · intro _
      omega
    · intro _
      trivial

/-- Witness for C10 at a one-element operation list and concrete indices. -/
theorem modMatrix_route_invariant_witness :
    (([MatrixOp.add ModSrc.LFO1 ModDest.FilterCutoff 1].foldl applyOp initMatrix).count ≤
      MAX_MOD_ROUTES) ∧
    (([MatrixOp.add ModSrc.LFO1 ModDest.FilterCutoff 1].foldl applyOp initMatrix).count ≤ 7 ∧
     ([MatrixOp.add ModSrc.LFO1 ModDest.FilterCutoff 1].foldl applyOp initMatrix).routes 7 =
       emptyRoute) ∧
    ((removeRoute initMatrix 0).1 = true ↔ 0 < initMatrix.count) :=
  ⟨(modMatrix_route_invariant [MatrixOp.add ModSrc.LFO1 ModDest.FilterCutoff 1]).1,
   ⟨by norm_num [applyOp, addRoute, initMatrix, MAX_MOD_ROUTES],
    (modMatrix_route_invariant [MatrixOp.add ModSrc.LFO1 ModDest.FilterCutoff 1]).2.1 7
      (by norm_num [applyOp, addRoute, initMatrix, MAX_MOD_ROUTES])⟩,
   (modMatrix_route_invariant []).2.2 initMatrix 0⟩

/-- C7: `setModDestStep` stores `(current - previous) * invNumSamples`; with
`invNumSamples = 1/N` for a block of `N > 0` samples, the interpolated value
`previous + step * i` equals `current` exactly at `i = N`, in exact
arithmetic. -/
theorem setModDestStep_spec (m : ModMatrix) (dest : ModDest) (v : ℕ) (n : ℕ)
    (hn : 0 < n) :
    (∀ inv : ℚ, (setModDestStep m dest v inv).destStepValues dest v =
      (m.destValues dest v - m.prevDestValues dest v) * inv) ∧
    m.prevDestValues dest v +
        (setModDestStep m dest v (1 / (n : ℚ))).destStepValues dest v * (n : ℚ) =
      m.destValues dest v := by
  have hstep : ∀ inv : ℚ, (setModDestStep m dest v inv).destStepValues dest v =
      (m.destValues dest v - m.prevDestValues dest v) * inv := by
    intro inv
    simp [setModDestStep]
  refine ⟨hstep, ?_⟩
  rw [hstep]
  have hne : (n : ℚ) ≠ 0 := Nat.cast_ne_zero.mpr (by omega)
  field_simp

/-- Witness for C7 at current 3, previous 1 and block length 4. -/
theorem setModDestStep_spec_witness :
    0 < 4 ∧
    ((∀ inv : ℚ,
      (setModDestStep (ModMatrix.mk (fun _ => emptyRoute) 0 (fun _ _ => 3) (fun _ _ => 1)
          (fun _ _ => 0)) ModDest.FilterCutoff 0 inv).destStepValues ModDest.FilterCutoff 0 =
        ((ModMatrix.mk (fun _ => emptyRoute) 0 (fun _ _ => 3) (fun _ _ => 1)
          (fun _ _ => 0)).destValues ModDest.FilterCutoff 0 -
         (ModMatrix.mk (fun _ => emptyRoute) 0 (fun _ _ => 3) (fun _ _ => 1)
          (fun _ _ => 0)).prevDestValues ModDest.FilterCutoff 0) * inv) ∧
    (ModMatrix.mk (fun _ => emptyRoute) 0 (fun _ _ => 3) (fun _ _ => 1)
        (fun _ _ => 0)).prevDestValues ModDest.FilterCutoff 0 +
      (setModDestStep (ModMatrix.mk (fun _ => emptyRoute) 0 (fun _ _ => 3) (fun _ _ => 1)
          (fun _ _ => 0)) ModDest.FilterCutoff 0
          (1 / ((4 : ℕ) : ℚ))).destStepValues ModDest.FilterCutoff 0 * ((4 : ℕ) : ℚ) =
      (ModMatrix.mk (fun _ => emptyRoute) 0 (fun _ _ => 3) (fun _ _ => 1)
        (fun _ _ => 0)).destValues ModDest.FilterCutoff 0) :=
  ⟨by norm_num,
   setModDestStep_spec (ModMatrix.mk (fun _ => emptyRoute) 0 (fun _ _ => 3) (fun _ _ => 1)
     (fun _ _ => 0)) ModDest.FilterCutoff 0 4 (by norm_num)⟩

end SynthMod

namespace SynthOsc

/-- C2 counterexample: at midiNote 69, octaveOffset 1, detune 0 and sample
rate 48000 the code sets the increment to `2048 * 880 / 48000` (the octave
offset doubles the frequency), while the claimed formula
`A4 * 2^((midiNote - 69 + octaveOffset + detune/1200)/12)` treats the octave
offset as a semitone offset and yields `2048 * (440 * 2^(1/12)) / 48000`. -/
theorem initOscillator_octave_counterexample :
    (initOscillator
        (WavetableOscillator.mk (fun _ => 0) (fun _ => 0) none 0 1 0 FMSource.None 1 0 true)
        0 69 48000).phaseIncrements 0 =
      (2048 : ℝ) * 880 / 48000 ∧
    (initOscillator
        (WavetableOscillator.mk (fun _ => 0) (fun _ => 0) none 0 1 0 FMSource.None 1 0 true)
        0 69 48000).phaseIncrements 0 ≠
      (DspWavetable.TABLE_SIZE : ℝ) *
        (440 * (2 : ℝ) ^ ((((69 : ℤ) : ℝ) - 69 + 1 + 0 / 1200) / 12)) / 48000 := by
  have hLHS : (initOscillator
      (WavetableOscillator.mk (fun _ => 0) (fun _ => 0) none 0 1 0 FMSource.None 1 0 true)
      0 69 48000).phaseIncrements 0 = (2048 : ℝ) * 880 / 48000 := by
    simp only [initOscillator, midiToFrequency, semitoneToFrequency, exp2,
      Function.update_same]
    rw [show ((WavetableOscillator.mk (fun _ => 0) (fun _ => 0) none 0 1 0 FMSource.None
        1 0 true).octaveOffset : ℝ) +
        (WavetableOscillator.mk (fun _ => 0) (fun _ => 0) none 0 1 0 FMSource.None
        1 0 true).detuneAmount / 1200 = 1 by norm_num]
    rw [Real.rpow_one]
    norm_num [ROOT_NOTE_MIDI, ROOT_NOTE_FREQ, semitoneRatio, DspWavetable.TABLE_SIZE]
  refine ⟨hLHS, ?_⟩
  rw [hLHS]
  have hexp : (((69 : ℤ) : ℝ) - 69 + 1 + 0 / 1200) / 12 = 1 / 12 := by norm_num
  rw [hexp]
  have hlt : (2 : ℝ) ^ ((1 : ℝ) / 12) < 2 := by
    calc (2 : ℝ) ^ ((1 : ℝ) / 12) < (2 : ℝ) ^ (1 : ℝ) :=
        Real.rpow_lt_rpow_of_exponent_lt (by norm_num) (by norm_num)
      _ = 2 := Real.rpow_one 2
  have hpos : (0 : ℝ) < (2 : ℝ) ^ ((1 : ℝ) / 12) := Real.rpow_pos_of_pos (by norm_num) _
  intro heq
  rw [show (DspWavetable.TABLE_SIZE : ℝ) = 2048 by norm_num [DspWavetable.TABLE_SIZE]] at heq
  have : (880 : ℝ) = 440 * (2 : ℝ) ^ ((1 : ℝ) / 12) := by
    field_simp at heq
    linarith
  linarith

/-- C2 amended: `initOscillator` resets the voice phase to 0 and sets the
phase increment to `TABLE_SIZE * freq / sampleRate` with
`freq = ROOT_NOTE_FREQ * SEMITONE_RATIO^(midiNote - 69) *
2^(octaveOffset + detuneAmount/1200)`: the octave offset and the detune act
in octaves through `exp2f`, not as semitone terms inside the 12th root. -/
theorem initOscillator_spec (osc : WavetableOscillator) (v : ℕ) (midiNote : ℤ)
    (sampleRate : ℝ) :
    (initOscillator osc v midiNote sampleRate).phases v = 0 ∧
    (initOscillator osc v midiNote sampleRate).phaseIncrements v =
      (DspWavetable.TABLE_SIZE : ℝ) *
        (ROOT_NOTE_FREQ * semitoneRatio ^ (midiNote - ROOT_NOTE_MIDI) *
          (2 : ℝ) ^ ((osc.octaveOffset : ℝ) + osc.detuneAmount / 1200)) / sampleRate := by
  constructor
  · simp [initOscillator, Function.update_same]
  · simp [initOscillator, midiToFrequency, semitoneToFrequency, exp2,
      Function.update_same]

end SynthOsc

namespace DspFilters

/-- C8: for every cutoff, resonance and sample rate, the SVF coefficient
computation clamps the cutoff to `[20, 0.45 * sampleRate]` and the resonance
to `[0, 0.99]` and returns `f = 2 * sin(pi * cutoff / sampleRate)` and
`q = 1 - resonance` on the clamped values, exactly as the spec formula
states; whenever `20 <= 0.45 * sampleRate` the clamped cutoff lies in the
stated interval, and the clamped resonance always lies in `[0, 0.99]`. -/
theorem updateFilterCoefficients_spec (cutoff resonance sampleRate : ℝ)
    (hsr : 20 ≤ sampleRate * 0.45) :
    updateFilterCoefficients cutoff resonance sampleRate =
      specSVFCoefficients cutoff resonance sampleRate ∧
    (updateFilterCoefficients cutoff resonance sampleRate).1 =
      2 * Real.sin (Real.pi * (max 20 (min cutoff (sampleRate * 0.45))) / sampleRate) ∧
    (updateFilterCoefficients cutoff resonance sampleRate).2 =
      1 - max 0 (min resonance 0.99) ∧
    20 ≤ max 20 (min cutoff (sampleRate * 0.45)) ∧
    max 20 (min cutoff (sampleRate * 0.45)) ≤ sampleRate * 0.45 ∧
    0 ≤ max 0 (min resonance 0.99) ∧
    max 0 (min resonance 0.99) ≤ 0.99 ∧
    0.01 ≤ (updateFilterCoefficients cutoff resonance sampleRate).2 ∧
    (updateFilterCoefficients cutoff resonance sampleRate).2 ≤ 1 := by
  have hq1 : (0 : ℝ) ≤ max 0 (min resonance 0.99) := le_max_left _ _
  have hq2 : max 0 (min resonance 0.99) ≤ 0.99 :=
    max_le (by norm_num) (min_le_right _ _)
  refine ⟨rfl, rfl, rfl, le_max_left _ _, max_le hsr (min_le_right _ _), hq1, hq2, ?_, ?_⟩
  · show (0.01 : ℝ) ≤ 1 - max 0 (min resonance 0.99)
    linarith
  · show (1 : ℝ) - max 0 (min resonance 0.99) ≤ 1
    linarith

/-- Witness for C8 at cutoff 1000, resonance 0.5 and sample rate 48000. -/
theorem updateFilterCoefficients_spec_witness :
    (20 : ℝ) ≤ 48000 * 0.45 ∧
    (updateFilterCoefficients 1000 0.5 48000 = specSVFCoefficients 1000 0.5 48000 ∧
     (updateFilterCoefficients 1000 0.5 48000).1 =
       2 * Real.sin (Real.pi * (max 20 (min 1000 ((48000 : ℝ) * 0.45))) / 48000) ∧
     (updateFilterCoefficients 1000 0.5 48000).2 =
       1 - max 0 (min (0.5 : ℝ) 0.99) ∧
     (20 : ℝ) ≤ max 20 (min 1000 ((48000 : ℝ) * 0.45)) ∧
     max 20 (min (1000 : ℝ) (48000 * 0.45)) ≤ 48000 * 0.45 ∧
     (0 : ℝ) ≤ max 0 (min (0.5 : ℝ) 0.99) ∧
     max 0 (min (0.5 : ℝ) 0.99) ≤ 0.99 ∧
     (0.01 : ℝ) ≤ (updateFilterCoefficients 1000 0.5 48000).2 ∧
     (updateFilterCoefficients 1000 0.5 48000).2 ≤ 1) :=
  ⟨by norm_num, updateFilterCoefficients_spec 1000 0.5 48000 (by norm_num)⟩

end DspFilters
